import Mathlib

/-!
Verification of the ICD-10 code matcher of MediMap-AI
(`src/components/IcdCodePredictor.tsx`).

The component's only algorithmic content is the function `predictIcdCode`,
a keyword-overlap heuristic over a fixed six-entry reference table.  We
embed it shallowly: JavaScript strings become Lean `String`s whose
underlying character lists we manipulate directly, and the floating-point
confidence arithmetic becomes exact rational arithmetic over `ℚ` (all
confidence values appearing are far enough apart that IEEE-754 rounding
never changes a comparison, so the rational model is faithful to the
orderings and to the decimal constants of the source).
-/

namespace MediMap

/-- JavaScript `toLowerCase()` on the character sequence of a string
(ASCII letters; the reference table and all relevant inputs are ASCII). -/
def jsToLower (s : List Char) : List Char := s.map Char.toLower

/-- JavaScript `trim()`: drop leading and trailing whitespace. -/
def jsTrim (s : List Char) : List Char :=
  ((s.dropWhile Char.isWhitespace).reverse.dropWhile Char.isWhitespace).reverse

/-- Does `s` start with the pattern `p`?  (Helper for `seqOccurs`.) -/
def seqStarts : List Char → List Char → Bool
  | [], _ => true
  | _ :: _, [] => false
  | x :: xs, y :: ys => (x = y) && seqStarts xs ys

/-- Does the pattern `pat` occur contiguously somewhere in the second list?
This is JavaScript `String.prototype.includes`. -/
def seqOccurs (pat : List Char) : List Char → Bool
  | [] => seqStarts pat []
  | c :: rest => seqStarts pat (c :: rest) || seqOccurs pat rest

/-- `jsIncludes a b` is JavaScript `a.includes(b)`. -/
def jsIncludes (a b : List Char) : Bool := seqOccurs b a

/-- JavaScript `s.split(" ")`: split on every single space, keeping empty
pieces; the empty string splits to `[""]`. -/
def jsSplitSpace : List Char → List (List Char)
  | [] => [[]]
  | c :: cs =>
    match jsSplitSpace cs with
    | [] => [[]]
    | w :: ws => if c = ' ' then [] :: w :: ws else (c :: w) :: ws

/-- One row of the hardcoded `sampleData` table. -/
structure RefEntry where
  diagnosis : String
  code : String
deriving DecidableEq

/-- The six hardcoded reference entries (`sampleData` in the source). -/
def sampleData : List RefEntry :=
  [ ⟨"Type 2 diabetes mellitus", "E11.9"⟩,
    ⟨"Essential hypertension", "I10"⟩,
    ⟨"Acute bronchitis", "J20.9"⟩,
    ⟨"Migraine", "G43.9"⟩,
    ⟨"Chronic kidney disease", "N18.9"⟩,
    ⟨"Asthma", "J45.9"⟩ ]

/-- The `PredictionResult` interface of the source. -/
structure PredictionResult where
  code : String
  confidence : ℚ
  description : String
deriving DecidableEq

/-- `sample.diagnosis.toLowerCase().split(" ")` — the label tokens of a
reference entry. -/
def sampleWordsOf (e : RefEntry) : List (List Char) :=
  jsSplitSpace (jsToLower e.diagnosis.data)

/-- The per-label-token test of the source:
`inputWords.some(inputWord => inputWord.includes(word) || word.includes(inputWord))`. -/
def wordMatched (inputWords : List (List Char)) (word : List Char) : Bool :=
  inputWords.any fun inputWord => jsIncludes inputWord word || jsIncludes word inputWord

/-- The `matchCount` accumulated by the `forEach` loop of the source. -/
def matchCountOf (e : RefEntry) (inputWords : List (List Char)) : Nat :=
  (sampleWordsOf e).countP (wordMatched inputWords)

/-- `Math.min(0.95, (matchCount / sampleWords.length) * 0.9 + 0.1)`. -/
def entryConfidence (e : RefEntry) (inputWords : List (List Char)) : ℚ :=
  min (95/100)
    ((matchCountOf e inputWords : ℚ) / ((sampleWordsOf e).length : ℚ) * (9/10) + 1/10)

/-- The initial `bestMatch` of the source. -/
def fallbackResult : PredictionResult :=
  { code := "Z00.00", confidence := 3/10, description := "General medical examination" }

/-- `input.toLowerCase().trim().split(" ")` — the normalized input tokens. -/
def normalizedTokens (input : String) : List (List Char) :=
  jsSplitSpace (jsTrim (jsToLower input.data))

/-- The body of the `for (const sample of sampleData)` loop: replace the
running best exactly when this entry's confidence strictly exceeds it. -/
def considerEntry (inputWords : List (List Char)) (bestMatch : PredictionResult)
    (sample : RefEntry) : PredictionResult :=
  let confidence := entryConfidence sample inputWords
  if bestMatch.confidence < confidence then
    { code := sample.code, confidence := confidence, description := sample.diagnosis }
  else bestMatch

/-- The matcher `predictIcdCode` of the source. -/
def predictIcdCode (input : String) : PredictionResult :=
  let normalizedInput := jsTrim (jsToLower input.data)
  sampleData.foldl (considerEntry (jsSplitSpace normalizedInput)) fallbackResult

/-- The selection procedure as the specification words it: a running best,
initialized to the fallback entry, scanned over the table in order,
replaced exactly when an entry's score strictly exceeds the current best's
confidence, keeping the winning entry's original diagnosis text as label. -/
def scanBest (inputWords : List (List Char)) :
    List RefEntry → PredictionResult → PredictionResult
  | [], best => best
  | e :: rest, best =>
    scanBest inputWords rest
      (if entryConfidence e inputWords > best.confidence then
        { code := e.code, confidence := entryConfidence e inputWords,
          description := e.diagnosis }
      else best)

/-- The matcher as described by the specification's selection paragraph. -/
def specMatch (input : String) : PredictionResult :=
  scanBest (normalizedTokens input) sampleData
    { code := "Z00.00", confidence := 3/10, description := "General medical examination" }

theorem predict_eq (input : String) :
    predictIcdCode input =
      sampleData.foldl (considerEntry (normalizedTokens input)) fallbackResult := rfl

theorem seqStarts_iff (p : List Char) : ∀ s, seqStarts p s = true ↔ p <+: s := by
  induction p with
  | nil =>
    intro s
    simp [seqStarts, List.nil_prefix]
  | cons x xs ih =>
    intro s
    cases s with
    | nil => simp [seqStarts, List.prefix_nil]
    | cons y ys =>
      simp [seqStarts, List.cons_prefix_cons, ih ys, Bool.and_eq_true, decide_eq_true_eq]

theorem seqOccurs_iff (p : List Char) : ∀ s, seqOccurs p s = true ↔ p <:+: s := by
  intro s
  induction s with
  | nil => simp [seqOccurs, seqStarts_iff, List.infix_nil, List.prefix_nil]
  | cons c rest ih =>
    rw [List.infix_cons_iff]
    simp [seqOccurs, Bool.or_eq_true, seqStarts_iff, ih]

theorem seqOccurs_nil (s : List Char) : seqOccurs [] s = true := by
  cases s <;> simp [seqOccurs, seqStarts]

theorem jsSplitSpace_ne_nil (s : List Char) : jsSplitSpace s ≠ [] := by
  cases s with
  | nil => simp [jsSplitSpace]
  | cons c cs =>
    rw [jsSplitSpace]
    cases h : jsSplitSpace cs with
    | nil => simp
    | cons w ws =>
      dsimp only
      split <;> simp

theorem wordMatched_iff (iw : List (List Char)) (w : List Char) :
    wordMatched iw w = true ↔ ∃ t ∈ iw, t <:+: w ∨ w <:+: t := by
  simp only [wordMatched, List.any_eq_true, Bool.or_eq_true, jsIncludes, seqOccurs_iff]
  constructor
  · rintro ⟨t, ht, h⟩
    exact ⟨t, ht, h.symm⟩
  · rintro ⟨t, ht, h⟩
    exact ⟨t, ht, h.symm⟩

theorem entryConfidence_le (e : RefEntry) (iw : List (List Char)) :
    entryConfidence e iw ≤ 95/100 :=
  min_le_left _ _

theorem entryConfidence_ge (e : RefEntry) (iw : List (List Char)) :
    1/10 ≤ entryConfidence e iw := by
  refine le_min (by norm_num) ?_
  have h : (0:ℚ) ≤ (matchCountOf e iw : ℚ) / ((sampleWordsOf e).length : ℚ) * (9/10) :=
    mul_nonneg
      (div_nonneg (Nat.cast_nonneg (matchCountOf e iw))
        (Nat.cast_nonneg (sampleWordsOf e).length))
      (by norm_num)
  linarith

theorem foldl_eq_scanBest (iw : List (List Char)) (l : List RefEntry) :
    ∀ b : PredictionResult, l.foldl (considerEntry iw) b = scanBest iw l b := by
  induction l with
  | nil => intro b; rfl
  | cons e rest ih =>
    intro b
    rw [List.foldl_cons, scanBest, ih]
    rfl

theorem charToNat_ofNat_valid {n : Nat} (h : n.isValidChar) : (Char.ofNat n).toNat = n := by
  rw [Char.ofNat, dif_pos h]
  rfl

theorem toLower_toLower (c : Char) : c.toLower.toLower = c.toLower := by
  unfold Char.toLower
  by_cases h : c.toNat ≥ 65 ∧ c.toNat ≤ 90
  · rw [if_pos h]
    have hv : (c.toNat + 32).isValidChar := Or.inl (by omega)
    have ht : (Char.ofNat (c.toNat + 32)).toNat = c.toNat + 32 := charToNat_ofNat_valid hv
    rw [if_neg]
    rw [ht]
    omega
  · rw [if_neg h, if_neg h]

theorem jsToLower_idem (s : List Char) : jsToLower (jsToLower s) = jsToLower s := by
  simp only [jsToLower, List.map_map]
  exact List.map_congr_left fun c _ => toLower_toLower c

/-- Invariant maintained by the running best of the selection loop. -/
def goodBest (b : PredictionResult) : Prop :=
  3/10 ≤ b.confidence ∧ b.confidence ≤ 95/100 ∧
    (b.code = "Z00.00" → b.confidence = 3/10) ∧
    (b.code ≠ "Z00.00" → 3/10 < b.confidence)

theorem considerEntry_inv (iw : List (List Char)) (b : PredictionResult) (e : RefEntry)
    (he : e.code ≠ "Z00.00") (hb : goodBest b) : goodBest (considerEntry iw b e) := by
  obtain ⟨h1, h2, h3, h4⟩ := hb
  simp only [considerEntry]
  split
  case isTrue h =>
    exact ⟨le_of_lt (lt_of_le_of_lt h1 h), entryConfidence_le e iw,
      fun hc => absurd hc he, fun _ => lt_of_le_of_lt h1 h⟩
  case isFalse h =>
    exact ⟨h1, h2, h3, h4⟩

theorem foldl_inv (iw : List (List Char)) :
    ∀ l : List RefEntry, (∀ e ∈ l, e.code ≠ "Z00.00") →
      ∀ b : PredictionResult, goodBest b → goodBest (l.foldl (considerEntry iw) b) := by
  intro l
  induction l with
  | nil => intro _ b hb; exact hb
  | cons e rest ih =>
    intro hl b hb
    rw [List.foldl_cons]
    exact ih (fun x hx => hl x (List.mem_cons_of_mem e hx))
      (considerEntry iw b e) (considerEntry_inv iw b e (hl e (List.mem_cons_self e rest)) hb)

theorem entryConfidence_eval (e : RefEntry) (iw : List (List Char)) (m n : Nat) (v : ℚ)
    (hm : matchCountOf e iw = m) (hn : (sampleWordsOf e).length = n)
    (hv : min (95/100 : ℚ) ((m : ℚ) / (n : ℚ) * (9/10) + 1/10) = v) :
    entryConfidence e iw = v := by
  rw [entryConfidence, hm, hn, hv]

/-- C1: for every input string and every reference entry, the entry's score
equals `min(0.95, (m / n) * 0.9 + 0.1)`, where `n` counts the tokens of the
lowercased, space-split label and `m` counts those label tokens for which
some token of the lowercased, trimmed, space-split input is a substring of
the label token or vice versa (bidirectional containment). -/
theorem score_formula (input : String) (e : RefEntry) (he : e ∈ sampleData) :
    entryConfidence e (normalizedTokens input) =
      min (95/100 : ℚ)
        (((jsSplitSpace (jsToLower e.diagnosis.data)).countP
            (fun w => decide (∃ t ∈ normalizedTokens input, t <:+: w ∨ w <:+: t)) : ℚ) /
          ((jsSplitSpace (jsToLower e.diagnosis.data)).length : ℚ) * (9/10) + 1/10) := by
  clear he
  rw [entryConfidence, matchCountOf]
  have hc : (sampleWordsOf e).countP (wordMatched (normalizedTokens input)) =
      (sampleWordsOf e).countP
        (fun w => decide (∃ t ∈ normalizedTokens input, t <:+: w ∨ w <:+: t)) := by
    refine List.countP_congr fun w hw => ?_
    simp only [wordMatched_iff, decide_eq_true_eq]
  rw [hc]
  rfl

theorem score_formula_witness :
    (⟨"Migraine", "G43.9"⟩ : RefEntry) ∈ sampleData ∧
    entryConfidence ⟨"Migraine", "G43.9"⟩ (normalizedTokens "migraine") =
      min (95/100 : ℚ)
        (((jsSplitSpace (jsToLower ("Migraine" : String).data)).countP
            (fun w => decide (∃ t ∈ normalizedTokens "migraine", t <:+: w ∨ w <:+: t)) : ℚ) /
          ((jsSplitSpace (jsToLower ("Migraine" : String).data)).length : ℚ) * (9/10) + 1/10) :=
  ⟨by decide, score_formula "migraine" ⟨"Migraine", "G43.9"⟩ (by decide)⟩

/-- C2: the result is computed by initializing the running best to the
fallback entry, scanning the table in order, and replacing the running best
exactly when an entry's score strictly exceeds the current best's
confidence; ties keep the earlier result, and the winner carries the
entry's original diagnosis text as its label. -/
theorem selection_matches_spec (input : String) : predictIcdCode input = specMatch input := by
  rw [predict_eq, specMatch]
  exact foldl_eq_scanBest (normalizedTokens input) sampleData fallbackResult

/-- C3: for every input the returned confidence lies in `[0, 0.95]` and is
at least `0.3`; a non-fallback code comes with confidence strictly above
`0.3`, while a returned fallback code comes with confidence exactly `0.3`. -/
theorem confidence_bounds (input : String) :
    0 ≤ (predictIcdCode input).confidence ∧
    (predictIcdCode input).confidence ≤ 95/100 ∧
    3/10 ≤ (predictIcdCode input).confidence ∧
    (((predictIcdCode input).code = "Z00.00" ∧ (predictIcdCode input).confidence = 3/10) ∨
      ((predictIcdCode input).code ≠ "Z00.00" ∧ 3/10 < (predictIcdCode input).confidence)) := by
  have hfall : goodBest fallbackResult :=
    ⟨le_refl _, by norm_num [fallbackResult], fun _ => rfl, fun h => absurd rfl h⟩
  have h := foldl_inv (normalizedTokens input) sampleData (by decide) fallbackResult hfall
  rw [predict_eq]
  obtain ⟨h1, h2, h3, h4⟩ := h
  refine ⟨le_trans (by norm_num) h1, h2, h1, ?_⟩
  by_cases hc :
      (sampleData.foldl (considerEntry (normalizedTokens input)) fallbackResult).code = "Z00.00"
  · exact Or.inl ⟨hc, h3 hc⟩
  · exact Or.inr ⟨hc, h4 hc⟩

/-- C4: whenever the normalized token sequence of the input contains the
empty token (in particular for empty or whitespace-only input), every label
token of every entry counts as matched, every entry scores `0.95`, and the
matcher returns the first table entry, not the fallback. -/
theorem empty_token_first_entry (input : String) (h : [] ∈ normalizedTokens input) :
    (∀ e ∈ sampleData, entryConfidence e (normalizedTokens input) = 95/100) ∧
    predictIcdCode input =
      { code := "E11.9", confidence := 95/100, description := "Type 2 diabetes mellitus" } := by
  have hconf : ∀ e : RefEntry, entryConfidence e (normalizedTokens input) = 95/100 := by
    intro e
    have hall : matchCountOf e (normalizedTokens input) = (sampleWordsOf e).length := by
      rw [matchCountOf, List.countP_eq_length]
      intro w hw
      rw [wordMatched]
      refine List.any_eq_true.2 ⟨[], h, ?_⟩
      rw [Bool.or_eq_true]
      right
      rw [jsIncludes]
      exact seqOccurs_nil w
    have hn : ((sampleWordsOf e).length : ℚ) ≠ 0 := by
      have hnil : sampleWordsOf e ≠ [] := jsSplitSpace_ne_nil (jsToLower e.diagnosis.data)
      exact Nat.cast_ne_zero.2 fun h0 => hnil (List.length_eq_zero.1 h0)
    rw [entryConfidence, hall, div_self hn]
    norm_num
  refine ⟨fun e _ => hconf e, ?_⟩
  simp only [predict_eq, sampleData, List.foldl, considerEntry,
    hconf ⟨"Type 2 diabetes mellitus", "E11.9"⟩, hconf ⟨"Essential hypertension", "I10"⟩,
    hconf ⟨"Acute bronchitis", "J20.9"⟩, hconf ⟨"Migraine", "G43.9"⟩,
    hconf ⟨"Chronic kidney disease", "N18.9"⟩, hconf ⟨"Asthma", "J45.9"⟩, fallbackResult]
  norm_num

theorem empty_token_first_entry_witness :
    [] ∈ normalizedTokens "   " ∧
    predictIcdCode "   " =
      { code := "E11.9", confidence := 95/100, description := "Type 2 diabetes mellitus" } :=
  ⟨by decide, (empty_token_first_entry "   " (by decide)).2⟩

/-- C5: `match("Type 2 diabetes mellitus")` returns the diabetes entry with
code `E11.9` and confidence `0.95`, because all four of its label tokens
match and `min(0.95, (4/4)*0.9 + 0.1) = 0.95`. -/
theorem exact_match_diabetes :
    matchCountOf ⟨"Type 2 diabetes mellitus", "E11.9"⟩
        (normalizedTokens "Type 2 diabetes mellitus") = 4 ∧
    min (95/100 : ℚ) ((4 : ℚ) / 4 * (9/10) + 1/10) = 95/100 ∧
    predictIcdCode "Type 2 diabetes mellitus" =
      { code := "E11.9", confidence := 95/100, description := "Type 2 diabetes mellitus" } := by
  refine ⟨by decide, by rw [min_def]; norm_num, ?_⟩
  have t1 : entryConfidence ⟨"Type 2 diabetes mellitus", "E11.9"⟩
      (normalizedTokens "Type 2 diabetes mellitus") = 95/100 :=
    entryConfidence_eval _ _ 4 4 _ (by decide) (by decide) (by rw [min_def]; norm_num)
  have t2 : entryConfidence ⟨"Essential hypertension", "I10"⟩
      (normalizedTokens "Type 2 diabetes mellitus") = 1/10 :=
    entryConfidence_eval _ _ 0 2 _ (by decide) (by decide) (by rw [min_def]; norm_num)
  have t3 : entryConfidence ⟨"Acute bronchitis", "J20.9"⟩
      (normalizedTokens "Type 2 diabetes mellitus") = 1/10 :=
    entryConfidence_eval _ _ 0 2 _ (by decide) (by decide) (by rw [min_def]; norm_num)
  have t4 : entryConfidence ⟨"Migraine", "G43.9"⟩
      (normalizedTokens "Type 2 diabetes mellitus") = 1/10 :=
    entryConfidence_eval _ _ 0 1 _ (by decide) (by decide) (by rw [min_def]; norm_num)
  have t5 : entryConfidence ⟨"Chronic kidney disease", "N18.9"⟩
      (normalizedTokens "Type 2 diabetes mellitus") = 1/10 :=
    entryConfidence_eval _ _ 0 3 _ (by decide) (by decide) (by rw [min_def]; norm_num)
  have t6 : entryConfidence ⟨"Asthma", "J45.9"⟩
      (normalizedTokens "Type 2 diabetes mellitus") = 1/10 :=
    entryConfidence_eval _ _ 0 1 _ (by decide) (by decide) (by rw [min_def]; norm_num)
  simp only [predict_eq, sampleData, List.foldl, considerEntry, t1, t2, t3, t4, t5, t6,
    fallbackResult]
  norm_num

/-- C6: `match("diabetes")` returns the diabetes entry with code `E11.9`
and confidence exactly `(1/4)*0.9 + 0.1 = 0.325`, which lies strictly
between `0.1` and `0.95` and strictly above the `0.3` fallback. -/
theorem partial_match_diabetes :
    matchCountOf ⟨"Type 2 diabetes mellitus", "E11.9"⟩ (normalizedTokens "diabetes") = 1 ∧
    min (95/100 : ℚ) ((1 : ℚ) / 4 * (9/10) + 1/10) = 13/40 ∧
    (1/10 : ℚ) < 13/40 ∧ (13/40 : ℚ) < 95/100 ∧ (3/10 : ℚ) < 13/40 ∧
    predictIcdCode "diabetes" =
      { code := "E11.9", confidence := 13/40, description := "Type 2 diabetes mellitus" } := by
  refine ⟨by decide, by rw [min_def]; norm_num, by norm_num, by norm_num, by norm_num, ?_⟩
  have t1 : entryConfidence ⟨"Type 2 diabetes mellitus", "E11.9"⟩
      (normalizedTokens "diabetes") = 13/40 :=
    entryConfidence_eval _ _ 1 4 _ (by decide) (by decide) (by rw [min_def]; norm_num)
  have t2 : entryConfidence ⟨"Essential hypertension", "I10"⟩
      (normalizedTokens "diabetes") = 1/10 :=
    entryConfidence_eval _ _ 0 2 _ (by decide) (by decide) (by rw [min_def]; norm_num)
  have t3 : entryConfidence ⟨"Acute bronchitis", "J20.9"⟩
      (normalizedTokens "diabetes") = 1/10 :=
    entryConfidence_eval _ _ 0 2 _ (by decide) (by decide) (by rw [min_def]; norm_num)
  have t4 : entryConfidence ⟨"Migraine", "G43.9"⟩
      (normalizedTokens "diabetes") = 1/10 :=
    entryConfidence_eval _ _ 0 1 _ (by decide) (by decide) (by rw [min_def]; norm_num)
  have t5 : entryConfidence ⟨"Chronic kidney disease", "N18.9"⟩
      (normalizedTokens "diabetes") = 1/10 :=
    entryConfidence_eval _ _ 0 3 _ (by decide) (by decide) (by rw [min_def]; norm_num)
  have t6 : entryConfidence ⟨"Asthma", "J45.9"⟩
      (normalizedTokens "diabetes") = 1/10 :=
    entryConfidence_eval _ _ 0 1 _ (by decide) (by decide) (by rw [min_def]; norm_num)
  simp only [predict_eq, sampleData, List.foldl, considerEntry, t1, t2, t3, t4, t5, t6,
    fallbackResult]
  norm_num

/-- C7: `match("unrelated text with no keywords")` returns the fallback,
because no label token of any entry has a bidirectional-substring match
with any input token, so every entry scores `0.1 < 0.3`. -/
theorem no_overlap_fallback :
    (∀ e ∈ sampleData,
      entryConfidence e (normalizedTokens "unrelated text with no keywords") = 1/10) ∧
    (1/10 : ℚ) < 3/10 ∧
    predictIcdCode "unrelated text with no keywords" =
      { code := "Z00.00", confidence := 3/10, description := "General medical examination" } := by
  have t1 : entryConfidence ⟨"Type 2 diabetes mellitus", "E11.9"⟩
      (normalizedTokens "unrelated text with no keywords") = 1/10 :=
    entryConfidence_eval _ _ 0 4 _ (by decide) (by decide) (by rw [min_def]; norm_num)
  have t2 : entryConfidence ⟨"Essential hypertension", "I10"⟩
      (normalizedTokens "unrelated text with no keywords") = 1/10 :=
    entryConfidence_eval _ _ 0 2 _ (by decide) (by decide) (by rw [min_def]; norm_num)
  have t3 : entryConfidence ⟨"Acute bronchitis", "J20.9"⟩
      (normalizedTokens "unrelated text with no keywords") = 1/10 :=
    entryConfidence_eval _ _ 0 2 _ (by decide) (by decide) (by rw [min_def]; norm_num)
  have t4 : entryConfidence ⟨"Migraine", "G43.9"⟩
      (normalizedTokens "unrelated text with no keywords") = 1/10 :=
    entryConfidence_eval _ _ 0 1 _ (by decide) (by decide) (by rw [min_def]; norm_num)
  have t5 : entryConfidence ⟨"Chronic kidney disease", "N18.9"⟩
      (normalizedTokens "unrelated text with no keywords") = 1/10 :=
    entryConfidence_eval _ _ 0 3 _ (by decide) (by decide) (by rw [min_def]; norm_num)
  have t6 : entryConfidence ⟨"Asthma", "J45.9"⟩
      (normalizedTokens "unrelated text with no keywords") = 1/10 :=
    entryConfidence_eval _ _ 0 1 _ (by decide) (by decide) (by rw [min_def]; norm_num)
  refine ⟨?_, by norm_num, ?_⟩
  · intro e he
    simp only [sampleData, List.mem_cons, List.not_mem_nil, or_false] at he
    rcases he with rfl | rfl | rfl | rfl | rfl | rfl
    · exact t1
    · exact t2
    · exact t3
    · exact t4
    · exact t5
    · exact t6
  · simp only [predict_eq, sampleData, List.foldl, considerEntry, t1, t2, t3, t4, t5, t6,
      fallbackResult]
    norm_num

/-- C8: the matcher is case-insensitive: lowercasing the input first does
not change the result; in particular `match("ASTHMA")` and
`match("asthma")` agree. -/
theorem case_insensitive :
    (∀ input : String,
      predictIcdCode input = predictIcdCode (String.mk (jsToLower input.data))) ∧
    predictIcdCode "ASTHMA" = predictIcdCode "asthma" := by
  have key : ∀ input : String,
      predictIcdCode input = predictIcdCode (String.mk (jsToLower input.data)) := by
    intro input
    have ht : normalizedTokens (String.mk (jsToLower input.data)) = normalizedTokens input := by
      show jsSplitSpace (jsTrim (jsToLower (jsToLower input.data))) =
        jsSplitSpace (jsTrim (jsToLower input.data))
      rw [jsToLower_idem]
    rw [predict_eq, predict_eq, ht]
  have hstr : String.mk (jsToLower ("ASTHMA" : String).data) = "asthma" := by decide
  refine ⟨key, ?_⟩
  rw [key "ASTHMA", hstr]

/-- C9: the matcher is a deterministic pure function — two invocations
with the same input yield the same code, confidence, and label. -/
theorem deterministic (input1 input2 : String) (h : input1 = input2) :
    (predictIcdCode input1).code = (predictIcdCode input2).code ∧
    (predictIcdCode input1).confidence = (predictIcdCode input2).confidence ∧
    (predictIcdCode input1).description = (predictIcdCode input2).description := by
  subst h
  exact ⟨rfl, rfl, rfl⟩

theorem deterministic_witness :
    ("asthma" : String) = "asthma" ∧
    ((predictIcdCode "asthma").code = (predictIcdCode "asthma").code ∧
      (predictIcdCode "asthma").confidence = (predictIcdCode "asthma").confidence ∧
      (predictIcdCode "asthma").description = (predictIcdCode "asthma").description) :=
  ⟨rfl, deterministic "asthma" "asthma" rfl⟩

/-- C10: the matcher is total — every input, including empty or
whitespace-only ones, produces a result — and splitting on spaces always
yields at least one token, so the label token count is never zero and the
division in the score formula is well defined. -/
theorem total_on_all_inputs :
    (∀ input : String, ∃ r : PredictionResult, predictIcdCode input = r) ∧
    (∀ s : List Char, 0 < (jsSplitSpace s).length) ∧
    (∀ e ∈ sampleData, 0 < (sampleWordsOf e).length) := by
  refine ⟨fun input => ⟨predictIcdCode input, rfl⟩, fun s => ?_, fun e _ => ?_⟩
  · exact List.length_pos.2 (jsSplitSpace_ne_nil s)
  · exact List.length_pos.2 (jsSplitSpace_ne_nil (jsToLower e.diagnosis.data))

end MediMap
